import Mathlib

/-!
Verification of the thriftpy transport layer (`thriftpy/transport.py`).

The Python classes are shallowly embedded as Lean structures and pure
functions.  Bytes are modelled as `Nat`, byte strings as `List Nat`.
Python exceptions are modelled by the explicit error type `PyErr`, and
operations that may raise return an `Except PyErr` (or carry an
`Option PyErr` alongside the mutated state, since Python mutations
performed before a raise persist).

The underlying socket / inner transport is modelled as a deterministic
scripted mock: `MockInner` carries a script of chunks that successive
`read` calls yield, plus an event log recording every `read`/`write`/
`flush` call forwarded to it, so that call-counting properties of the
buffered transport are expressible.
-/

/-- Errors a transport operation can raise.  `eofError` is Python's builtin
`EOFError` raised by `TTransportBase.readAll`; `transportExc ty msg` is
`TTransportException(type=ty, message=msg)`; `socketError code` is a
`socket.error` with `errno` = `code`; `attributeError` models the
`AttributeError` raised when a method is invoked on `None`. -/
inductive PyErr where
  | eofError
  | transportExc (ty : Nat) (message : String)
  | socketError (errnoCode : Nat)
  | attributeError
deriving DecidableEq

/-- `TTransportException.UNKNOWN` -/
def TTransportException.UNKNOWN : Nat := 0

/-- `TTransportException.NOT_OPEN` -/
def TTransportException.NOT_OPEN : Nat := 1

/-- `TTransportException.ALREADY_OPEN` -/
def TTransportException.ALREADY_OPEN : Nat := 2

/-- `TTransportException.TIMED_OUT` -/
def TTransportException.TIMED_OUT : Nat := 3

/-- `TTransportException.END_OF_FILE` -/
def TTransportException.END_OF_FILE : Nat := 4

/-- One call forwarded to the inner (wrapped) transport. -/
inductive InnerEvent where
  | read (sz : Nat)
  | write (buf : List Nat)
  | flush
deriving DecidableEq

/-- Scripted mock of the transport wrapped by `TBufferedTransport` (or of a
generic transport under `TTransportBase.readAll`): each `read` call yields
the next chunk of `readScript` (an exhausted script yields the empty byte
string); `writeFail` / `flushFail` say whether a forwarded `write` / `flush`
raises.  `log` records every forwarded call in order. -/
structure MockInner where
  readScript : List (List Nat)
  writeFail : Bool
  flushFail : Bool
  log : List InnerEvent
deriving DecidableEq

/-- Mock inner transport with an empty call log. -/
def MockInner.init (script : List (List Nat)) (wf ff : Bool) : MockInner :=
  { readScript := script, writeFail := wf, flushFail := ff, log := [] }

/-- One `read sz` call on the mock: yields the next scripted chunk
(or the empty byte string when the script is exhausted) and logs the call. -/
def MockInner.read (m : MockInner) (sz : Nat) : List Nat × MockInner :=
  match m.readScript with
  | [] => ([], { m with log := m.log ++ [InnerEvent.read sz] })
  | d :: rest =>
      (d, { m with readScript := rest, log := m.log ++ [InnerEvent.read sz] })

/-- One `write buf` call on the mock: logs the call (the forwarded send
happens, and only then may fail) and raises iff `writeFail`. -/
def MockInner.write (m : MockInner) (buf : List Nat) : MockInner × Option PyErr :=
  ({ m with log := m.log ++ [InnerEvent.write buf] },
   if m.writeFail then
     some (PyErr.transportExc TTransportException.UNKNOWN "inner write failed")
   else none)

/-- One `flush` call on the mock: logs the call and raises iff `flushFail`. -/
def MockInner.flush (m : MockInner) : MockInner × Option PyErr :=
  ({ m with log := m.log ++ [InnerEvent.flush] },
   if m.flushFail then
     some (PyErr.transportExc TTransportException.UNKNOWN "inner flush failed")
   else none)

/-- The loop of `TTransportBase.readAll` (transport.py lines 13-24) run over
a scripted mock, with the state fields passed explicitly:
`hv`/`buff` are the Python locals `have`/`buff`; each iteration with
`hv < sz` issues `read (sz - hv)`, which yields the next scripted chunk
(empty when the script is exhausted), appends it, and raises `EOFError`
if the chunk was empty.  Returns (remaining script, log, result). -/
def mockReadAllGo (sz : Nat) :
    List (List Nat) → Nat → List Nat → List InnerEvent →
    List (List Nat) × List InnerEvent × Except PyErr (List Nat)
  | script, hv, buff, log =>
    if hv < sz then
      match script with
      | [] => ([], log ++ [InnerEvent.read (sz - hv)], Except.error PyErr.eofError)
      | d :: rest =>
          if d.length = 0 then
            (rest, log ++ [InnerEvent.read (sz - hv)], Except.error PyErr.eofError)
          else
            mockReadAllGo sz rest (hv + d.length) (buff ++ d)
              (log ++ [InnerEvent.read (sz - hv)])
    else (script, log, Except.ok buff)

/-- `TTransportBase.readAll sz` over the scripted mock. -/
def MockInner.readAll (m : MockInner) (sz : Nat) :
    MockInner × Except PyErr (List Nat) :=
  let r := mockReadAllGo sz m.readScript 0 [] m.log
  ({ m with readScript := r.1, log := r.2.1 }, r.2.2)

/-- Model of `io.BytesIO` as used for the read buffer: the full byte
contents plus a read cursor.  (Named `ByteBuf` here.) -/
structure ByteBuf where
  data : List Nat
  pos : Nat
deriving DecidableEq

/-- `BytesIO.read sz`: return up to `sz` bytes from the cursor onward and
advance the cursor by the number of bytes returned. -/
def ByteBuf.read (b : ByteBuf) (sz : Nat) : List Nat × ByteBuf :=
  let ret := (b.data.drop b.pos).take sz
  (ret, { b with pos := b.pos + ret.length })

/-- `TBufferedTransport.DEFAULT_BUFFER` -/
def TBufferedTransport.DEFAULT_BUFFER : Nat := 4096

/-- State of a `TBufferedTransport` wrapping the scripted mock:
`wbuf` is the write buffer's accumulated contents (`self.__wbuf`),
`rbuf` the read buffer (`self.__rbuf`), `rbuf_size` the block size
(`self.__rbuf_size`). -/
structure TBufferedTransport where
  inner : MockInner
  wbuf : List Nat
  rbuf : ByteBuf
  rbuf_size : Nat
deriving DecidableEq

/-- `TBufferedTransport.__init__` over a freshly scripted mock inner
transport: empty write buffer, empty read buffer. -/
def TBufferedTransport.init (script : List (List Nat)) (wf ff : Bool)
    (bs : Nat) : TBufferedTransport :=
  { inner := MockInner.init script wf ff
    wbuf := []
    rbuf := { data := [], pos := 0 }
    rbuf_size := bs }

/-- `TBufferedTransport.read sz` (transport.py lines 64-70): serve from the
read buffer if that yields a non-empty slice; otherwise replace the buffer
wholesale with `inner.read (max sz rbuf_size)` and serve from the fresh
buffer. -/
def TBufferedTransport.read (t : TBufferedTransport) (sz : Nat) :
    TBufferedTransport × List Nat :=
  let r1 := t.rbuf.read sz
  if r1.1.length ≠ 0 then ({ t with rbuf := r1.2 }, r1.1)
  else
    let r2 := t.inner.read (max sz t.rbuf_size)
    let rb : ByteBuf := { data := r2.1, pos := 0 }
    let r3 := rb.read sz
    ({ t with inner := r2.2, rbuf := r3.2 }, r3.1)

/-- `TBufferedTransport.write buf`: append to the write buffer; no I/O. -/
def TBufferedTransport.write (t : TBufferedTransport) (buf : List Nat) :
    TBufferedTransport :=
  { t with wbuf := t.wbuf ++ buf }

/-- `TBufferedTransport.flush` (transport.py lines 75-80): take the write
buffer's contents, reset the write buffer to empty FIRST, then forward the
saved contents to `inner.write` followed by `inner.flush`.  A raise from
either forwarded call propagates, but the reset of `wbuf` has already
happened and persists. -/
def TBufferedTransport.flush (t : TBufferedTransport) :
    TBufferedTransport × Option PyErr :=
  let out := t.wbuf
  let t1 := { t with wbuf := ([] : List Nat) }
  let w := t1.inner.write out
  match w.2 with
  | some e => ({ t1 with inner := w.1 }, some e)
  | none =>
      let f := w.1.flush
      ({ t1 with inner := f.1 }, f.2)

/-- `TBufferedTransport.cstringio_refill partBytes reqlen` (transport.py
lines 86-97): `partBytes` is the Python parameter `partialread` (the bytes
already consumed from the old buffer).  If `reqlen < rbuf_size`, first do
one opportunistic `inner.read rbuf_size`; then, if still short of `reqlen`
bytes, obtain the exact shortfall via `inner.readAll`; install and return a
brand-new read buffer at position 0.  A raise out of `readAll` propagates
(the read buffer is then not replaced, but the mock's consumed script and
log persist). -/
def TBufferedTransport.cstringio_refill (t : TBufferedTransport)
    (partBytes : List Nat) (reqlen : Nat) :
    TBufferedTransport × Except PyErr ByteBuf :=
  let s1 :=
    if reqlen < t.rbuf_size then
      let r := t.inner.read t.rbuf_size
      (partBytes ++ r.1, r.2)
    else (partBytes, t.inner)
  if s1.1.length < reqlen then
    let r2 := s1.2.readAll (reqlen - s1.1.length)
    match r2.2 with
    | Except.error e => ({ t with inner := r2.1 }, Except.error e)
    | Except.ok more =>
        let rb : ByteBuf := { data := s1.1 ++ more, pos := 0 }
        ({ t with inner := r2.1, rbuf := rb }, Except.ok rb)
  else
    let rb : ByteBuf := { data := s1.1, pos := 0 }
    ({ t with inner := s1.2, rbuf := rb }, Except.ok rb)

/-- Candidate address as produced by `TSocketBase._resolveAddr`: either a
Unix-domain stream socket path, or one `getaddrinfo` result for
host / port. -/
inductive Cand where
  | unix (path : String)
  | inet (host : String) (port : Nat)
deriving DecidableEq

/-- A socket object created by `socket.socket(...)` during `TSocket.open`
(or installed via `setHandle`): the candidate it was created for, and
whether `connect` has succeeded on it. -/
structure SockHandle where
  cand : Cand
  connected : Bool
deriving DecidableEq

/-- State of a `TSocket`.  The timeout field is omitted: it never affects
the control flow modelled here. -/
structure TSocket where
  host : String
  port : Nat
  unix_socket : Option String
  handle : Option SockHandle
deriving DecidableEq

/-- `TSocket.__init__`: store the target, `handle = None`. -/
def TSocket.init (host : String) (port : Nat) (unix_socket : Option String) :
    TSocket :=
  { host := host, port := port, unix_socket := unix_socket, handle := none }

/-- `TSocket.isOpen`: `self.handle is not None`. -/
def TSocket.isOpen (s : TSocket) : Bool :=
  s.handle.isSome

/-- `TSocketBase.close`: if a handle is present, close it and clear the
reference; otherwise a no-op. -/
def TSocket.close (s : TSocket) : TSocket :=
  match s.handle with
  | some _ => { s with handle := none }
  | none => s

/-- `TSocketBase._resolveAddr`: a set `unix_socket` yields the single
Unix-domain stream candidate; otherwise the `getaddrinfo` results for
host / port (the system resolver is the oracle `gai`). -/
def TSocket.resolveAddr (s : TSocket) (gai : String → Nat → List Cand) :
    List Cand :=
  match s.unix_socket with
  | some p => [Cand.unix p]
  | none => gai s.host s.port

/-- The message of the `NOT_OPEN` exception raised when `TSocket.open`
exhausts all candidates.  Python tests `if self._unix_socket:` — truthiness,
so an empty unix path falls through to the host:port message. -/
def TSocket.openFailMessage (s : TSocket) : String :=
  match s.unix_socket with
  | some p =>
      if p = "" then "Could not connect to " ++ s.host ++ ":" ++ toString s.port
      else "Could not connect to socket " ++ p
  | none => "Could not connect to " ++ s.host ++ ":" ++ toString s.port

/-- The candidate loop of `TSocket.open` (transport.py lines 155-165): each
iteration assigns `self.handle` to a fresh unconnected socket for the
candidate, then tries `connect` (outcome given by the oracle `ok`).  On
success, break with the handle connected.  On failure, continue with the
next candidate if one remains, else the error propagates (`false`).  `n`
counts failed connect attempts.  Returns (final handle, failed attempts,
no-exception flag). -/
def TSocket.openGo (ok : Cand → Bool) :
    List Cand → Nat → Option SockHandle →
    Option SockHandle × Nat × Bool
  | [], n, h0 => (h0, n, true)
  | c :: rest, n, _ =>
    if ok c then (some { cand := c, connected := true }, n, true)
    else if rest = [] then (some { cand := c, connected := false }, n + 1, false)
    else TSocket.openGo ok rest (n + 1) (some { cand := c, connected := false })

/-- `TSocket.open` (transport.py lines 152-172): resolve candidates, run the
candidate loop; a propagated `socket.error` is converted to a `NOT_OPEN`
`TTransportException` naming the target.  Returns the mutated socket, the
number of failed connect attempts, and the raised exception if any. -/
def TSocket.open (s : TSocket) (gai : String → Nat → List Cand)
    (ok : Cand → Bool) : TSocket × Nat × Option PyErr :=
  let r := TSocket.openGo ok (s.resolveAddr gai) 0 s.handle
  if r.2.2 then ({ s with handle := r.1 }, r.2.1, none)
  else
    ({ s with handle := r.1 }, r.2.1,
     some (PyErr.transportExc TTransportException.NOT_OPEN s.openFailMessage))

/-- Symbolic `errno.ECONNRESET` (its numeric value is platform specific). -/
def ECONNRESET : Nat := 104

/-- Outcome of one `self.handle.recv sz` call, supplied as an oracle:
either the received bytes or a `socket.error` with the given errno. -/
inductive RecvResult where
  | recvOk (data : List Nat)
  | recvErr (errnoCode : Nat)
deriving DecidableEq

/-- `TSocket.read sz` (transport.py lines 174-193).  With `handle = None`
the attribute dereference `self.handle.recv` raises `AttributeError` — there
is no NOT_OPEN check here.  A `socket.error` with errno `ECONNRESET` on
darwin / freebsd platforms is normalized: the socket is closed and the empty
result falls through to the zero-length check; any other `socket.error`
propagates.  A zero-length receive raises the typed `END_OF_FILE`
exception — an empty byte string is never returned as a success. -/
def TSocket.read (s : TSocket) (platform : String) (recv : RecvResult)
    (sz : Nat) : TSocket × Except PyErr (List Nat) :=
  match s.handle with
  | none => (s, Except.error PyErr.attributeError)
  | some _ =>
    match recv with
    | RecvResult.recvOk data =>
        if data.length = 0 then
          (s, Except.error (PyErr.transportExc TTransportException.END_OF_FILE
                "TSocket read 0 bytes"))
        else (s, Except.ok data)
    | RecvResult.recvErr code =>
        if code = ECONNRESET ∧
            (platform = "darwin" ∨ platform.startsWith "freebsd" = true) then
          (s.close,
           Except.error (PyErr.transportExc TTransportException.END_OF_FILE
             "TSocket read 0 bytes"))
        else (s, Except.error (PyErr.socketError code))

/-- The send loop of `TSocket.write` (transport.py lines 199-207): `sent`
and `hv` are the Python locals `sent` / `have` (`hv` is fixed at the
original buffer length); `buff` is the remaining suffix still to send; the
oracle `send` says how many bytes one `self.handle.send buff` call accepts.
A call accepting zero bytes raises the typed `END_OF_FILE` exception.
The log records each send call as (payload passed, bytes accepted). -/
def TSocket.writeGo (send : List Nat → Nat) (buff : List Nat)
    (sent hv : Nat) (log : List (List Nat × Nat)) :
    List (List Nat × Nat) × Option PyErr :=
  if h : sent < hv then
    if hp : send buff = 0 then
      (log ++ [(buff, 0)],
       some (PyErr.transportExc TTransportException.END_OF_FILE
         "TSocket sent 0 bytes"))
    else
      TSocket.writeGo send (buff.drop (send buff)) (sent + send buff) hv
        (log ++ [(buff, send buff)])
  else (log, none)
termination_by hv - sent
decreasing_by omega

/-- `TSocket.write buff` (transport.py lines 195-207): raise the typed
`NOT_OPEN` exception if no handle is present, else run the send loop.
Returns the send-call log and the raised exception if any. -/
def TSocket.write (s : TSocket) (send : List Nat → Nat) (buff : List Nat) :
    List (List Nat × Nat) × Option PyErr :=
  match s.handle with
  | none =>
      ([], some (PyErr.transportExc TTransportException.NOT_OPEN
        "Transport not open"))
  | some _ => TSocket.writeGo send buff 0 buff.length []

/-- The mock send oracle of the spec's concrete scenario: the socket
accepts at most 3 bytes per `send` call. -/
def sendAtMost3 : List Nat → Nat :=
  fun b => min 3 b.length

/-- A ten-byte buffer for the concrete scenario. -/
def bytes10 : List Nat := [0, 1, 2, 3, 4, 5, 6, 7, 8, 9]

/-- An open socket (live connected handle) for the concrete scenario. -/
def sockOpen : TSocket :=
  { host := "h", port := 1, unix_socket := none,
    handle := some { cand := Cand.inet "h" 1, connected := true } }

/-- A buffered transport whose read buffer holds the three unread bytes
`[5, 6, 7]`, for the witness of the buffered-read claim. -/
def bufT1 : TBufferedTransport :=
  { inner := MockInner.init [[7, 8]] false false
    wbuf := []
    rbuf := { data := [5, 6, 7], pos := 0 }
    rbuf_size := 4 }

/-- A fresh buffered transport after an arbitrary sequence of `write`
calls (the scenario of the flush claim). -/
def flushT (bufs script : List (List Nat)) (wf ff : Bool) (bs : Nat) :
    TBufferedTransport :=
  bufs.foldl TBufferedTransport.write (TBufferedTransport.init script wf ff bs)

-- Helper lemmas about the readAll loop.

theorem mockReadAllGo_ok (script : List (List Nat))
    (h : ∀ c ∈ script, c ≠ []) :
    ∀ (buff : List Nat) (log : List InnerEvent),
      (mockReadAllGo (buff.length + script.flatten.length) script
          buff.length buff log).2.2 = Except.ok (buff ++ script.flatten) := by
  induction script with
  | nil => intro buff log; simp [mockReadAllGo]
  | cons d rest ih =>
      intro buff log
      have hd : d ≠ [] := h d (by simp)
      have hdl : 0 < d.length := List.length_pos.mpr hd
      have hrest : ∀ c ∈ rest, c ≠ [] := fun c hc => h c (by simp [hc])
      rw [mockReadAllGo]
      rw [if_pos (by simp [List.flatten_cons]; omega)]
      rw [if_neg (by omega)]
      have hsz : buff.length + ((d :: rest).flatten).length
          = (buff ++ d).length + rest.flatten.length := by
        simp [List.flatten_cons]; omega
      have hlen : buff.length + d.length = (buff ++ d).length := by simp
      rw [hsz, hlen, ih hrest (buff ++ d) _]
      simp [List.flatten_cons]

theorem mockReadAllGo_short (script : List (List Nat))
    (h : ∀ c ∈ script, c ≠ []) :
    ∀ (sz : Nat) (buff : List Nat) (log : List InnerEvent),
      buff.length + script.flatten.length < sz →
      (mockReadAllGo sz script buff.length buff log).2.2
        = Except.error PyErr.eofError := by
  induction script with
  | nil =>
      intro sz buff log hlt
      rw [mockReadAllGo]
      rw [if_pos (by simp at hlt; omega)]
  | cons d rest ih =>
      intro sz buff log hlt
      have hd : d ≠ [] := h d (by simp)
      have hdl : 0 < d.length := List.length_pos.mpr hd
      have hrest : ∀ c ∈ rest, c ≠ [] := fun c hc => h c (by simp [hc])
      simp [List.flatten_cons] at hlt
      rw [mockReadAllGo]
      rw [if_pos (by omega)]
      rw [if_neg (by omega)]
      have hlen : buff.length + d.length = (buff ++ d).length := by simp
      rw [hlen, ih hrest sz (buff ++ d) _ (by simp; omega)]

theorem mockReadAllGo_empty_chunk (script : List (List Nat))
    (h : ∀ c ∈ script, c ≠ []) :
    ∀ (rest : List (List Nat)) (sz : Nat) (buff : List Nat)
      (log : List InnerEvent),
      buff.length + script.flatten.length < sz →
      (mockReadAllGo sz (script ++ [] :: rest) buff.length buff log).2.2
        = Except.error PyErr.eofError := by
  induction script with
  | nil =>
      intro rest sz buff log hlt
      simp at hlt
      rw [List.nil_append, mockReadAllGo]
      rw [if_pos (by omega)]
      simp
  | cons d tail ih =>
      intro rest sz buff log hlt
      have hd : d ≠ [] := h d (by simp)
      have hdl : 0 < d.length := List.length_pos.mpr hd
      have htail : ∀ c ∈ tail, c ≠ [] := fun c hc => h c (by simp [hc])
      simp [List.flatten_cons] at hlt
      rw [List.cons_append, mockReadAllGo]
      rw [if_pos (by omega)]
      rw [if_neg (by omega)]
      have hlen : buff.length + d.length = (buff ++ d).length := by simp
      rw [hlen, ih htail rest sz (buff ++ d) _ (by simp; omega)]

/-- C1: for every chunking of `n` bytes into non-empty pieces, `readAll n`
over a transport whose successive reads yield those pieces returns exactly
the `n` bytes concatenated in order; and whenever a read yields zero bytes
before `n` bytes have been collected — either because the stream is
exhausted (fewer than `n` bytes total) or because an explicit empty chunk
arrives while the running total is still short — `readAll n` fails with the
end-of-stream error `EOFError` instead of returning. -/
theorem readAll_chunked_spec (script : List (List Nat))
    (h : ∀ c ∈ script, c ≠ []) (wf ff : Bool) :
    ((MockInner.init script wf ff).readAll script.flatten.length).2
        = Except.ok script.flatten
    ∧ (∀ n, script.flatten.length < n →
        ((MockInner.init script wf ff).readAll n).2
          = Except.error PyErr.eofError)
    ∧ (∀ rest n, script.flatten.length < n →
        ((MockInner.init (script ++ [] :: rest) wf ff).readAll n).2
          = Except.error PyErr.eofError) := by
  refine ⟨?_, ?_, ?_⟩
  · have := mockReadAllGo_ok script h [] []
    simpa [MockInner.readAll, MockInner.init] using this
  · intro n hn
    have := mockReadAllGo_short script h n [] [] (by simpa using hn)
    simpa [MockInner.readAll, MockInner.init] using this
  · intro rest n hn
    have := mockReadAllGo_empty_chunk script h rest n [] [] (by simpa using hn)
    simpa [MockInner.readAll, MockInner.init] using this

/-- Witness for `readAll_chunked_spec` at the concrete chunking
`[[1], [2, 3]]` of the three bytes `[1, 2, 3]`. -/
theorem readAll_chunked_spec_witness :
    ((MockInner.init [[1], [2, 3]] false false).readAll 3).2
      = Except.ok [1, 2, 3]
    ∧ ((MockInner.init [[1], [2, 3]] false false).readAll 4).2
      = Except.error PyErr.eofError := by
  have h := readAll_chunked_spec [[1], [2, 3]] (by decide) false false
  exact ⟨h.1, h.2.1 4 (by decide)⟩

-- Helper lemmas for the buffered transport.

theorem foldl_write_eq (bufs : List (List Nat)) :
    ∀ t : TBufferedTransport,
      bufs.foldl TBufferedTransport.write t
        = { t with wbuf := t.wbuf ++ bufs.flatten } := by
  induction bufs with
  | nil => intro t; simp
  | cons b rest ih =>
      intro t
      simp [List.foldl_cons, TBufferedTransport.write, ih, List.flatten_cons]

theorem MockInner.read_log (m : MockInner) (sz : Nat) :
    (m.read sz).2.log = m.log ++ [InnerEvent.read sz] := by
  cases hm : m.readScript <;> simp [MockInner.read, hm]

/-- C2: writing any number of times and then flushing a Buffered Transport
resets the write buffer to empty before any inner call (so it is empty
afterwards even when a forwarded call raised), performs exactly one inner
write carrying all buffered bytes concatenated in write order followed by
exactly one inner flush; a second flush immediately after performs only
calls with empty payload; and after a failed forwarded write the buffer is
already empty, so a retry flush forwards only an empty payload. -/
theorem buffered_flush_spec (bufs script : List (List Nat)) (wf ff : Bool)
    (bs : Nat) :
    ((flushT bufs script wf ff bs).flush).1.wbuf = []
    ∧ (wf = false → ff = false →
        ((flushT bufs script wf ff bs).flush).2 = none
        ∧ ((flushT bufs script wf ff bs).flush).1.inner.log
            = [InnerEvent.write bufs.flatten, InnerEvent.flush]
        ∧ (((flushT bufs script wf ff bs).flush).1.flush).2 = none
        ∧ (((flushT bufs script wf ff bs).flush).1.flush).1.inner.log
            = [InnerEvent.write bufs.flatten, InnerEvent.flush,
               InnerEvent.write [], InnerEvent.flush])
    ∧ (wf = true →
        (((flushT bufs script wf ff bs).flush).2).isSome = true
        ∧ ((flushT bufs script wf ff bs).flush).1.inner.log
            = [InnerEvent.write bufs.flatten]
        ∧ (((flushT bufs script wf ff bs).flush).1.flush).1.wbuf = []
        ∧ (((flushT bufs script wf ff bs).flush).1.flush).1.inner.log
            = [InnerEvent.write bufs.flatten, InnerEvent.write []]) := by
  have ht : flushT bufs script wf ff bs
      = { inner := MockInner.init script wf ff
          wbuf := bufs.flatten
          rbuf := { data := [], pos := 0 }
          rbuf_size := bs } := by
    simp [flushT, foldl_write_eq, TBufferedTransport.init]
  rw [ht]
  cases wf <;> cases ff <;>
    simp [TBufferedTransport.flush, MockInner.write, MockInner.flush,
      MockInner.init]

/-- Witness for `buffered_flush_spec`: writing `[1, 2]` then `[3]` and
flushing yields exactly one inner write of `[1, 2, 3]` followed by one
inner flush. -/
theorem buffered_flush_spec_witness :
    ((flushT [[1, 2], [3]] [] false false 4096).flush).1.inner.log
        = [InnerEvent.write [1, 2, 3], InnerEvent.flush]
    ∧ ((flushT [[1, 2], [3]] [] false false 4096).flush).1.wbuf = [] := by
  have h := buffered_flush_spec [[1, 2], [3]] [] false false 4096
  exact ⟨(h.2.1 rfl rfl).2.1, h.1⟩

/-- C7: if the read buffer of a Buffered Transport still holds at least
`k ≥ 1` unconsumed bytes, `read k` returns exactly the next `k` buffered
bytes, merely advancing the cursor, and leaves the inner transport
untouched (zero inner calls); if it holds no unconsumed bytes, `read k`
discards the old buffer, issues exactly one inner read requesting
`max k blockSize` bytes (so exactly `blockSize` when `k < blockSize`),
installs the result as the fresh buffer, and serves up to `k` bytes from
it. -/
theorem buffered_read_spec (t : TBufferedTransport) (k : Nat)
    (hk : 1 ≤ k) :
    (k ≤ (t.rbuf.data.drop t.rbuf.pos).length →
       t.read k
         = ({ t with rbuf := { data := t.rbuf.data, pos := t.rbuf.pos + k } },
            (t.rbuf.data.drop t.rbuf.pos).take k))
    ∧ (t.rbuf.data.drop t.rbuf.pos = [] →
       t.read k
         = ({ t with
               inner := (t.inner.read (max k t.rbuf_size)).2,
               rbuf := { data := (t.inner.read (max k t.rbuf_size)).1,
                         pos := ((t.inner.read (max k t.rbuf_size)).1.take k).length } },
            (t.inner.read (max k t.rbuf_size)).1.take k)
       ∧ (t.inner.read (max k t.rbuf_size)).2.log
           = t.inner.log ++ [InnerEvent.read (max k t.rbuf_size)]
       ∧ (k < t.rbuf_size → max k t.rbuf_size = t.rbuf_size)) := by
  constructor
  · intro hbuf
    have hbuf2 : k ≤ t.rbuf.data.length - t.rbuf.pos := by simpa using hbuf
    have hlen : ((t.rbuf.data.drop t.rbuf.pos).take k).length = k := by
      simp [List.length_take, List.length_drop]; omega
    have hne : ((t.rbuf.data.drop t.rbuf.pos).take k).length ≠ 0 := by omega
    have hk0 : k ≠ 0 := by omega
    simp [TBufferedTransport.read, ByteBuf.read, hne, hlen, hk0]
  · intro hdrop
    refine ⟨?_, MockInner.read_log t.inner (max k t.rbuf_size), ?_⟩
    · simp [TBufferedTransport.read, ByteBuf.read, hdrop]
    · intro hlt
      exact Nat.max_eq_right (Nat.le_of_lt hlt)

/-- Witness for `buffered_read_spec`: a buffer holding unread `[5, 6, 7]`
serves `read 2` as `[5, 6]` with no inner call. -/
theorem buffered_read_spec_witness :
    bufT1.read 2 = ({ bufT1 with rbuf := { data := [5, 6, 7], pos := 2 } },
      [5, 6]) := by
  exact (buffered_read_spec bufT1 2 (by decide)).1 (by decide)

-- Helper lemmas for the open candidate loop.

theorem openGo_success (ok : Cand → Bool) (c : Cand) (hc : ok c = true)
    (front : List Cand) :
    (∀ x ∈ front, ok x = false) →
      ∀ (n : Nat) (h0 : Option SockHandle),
        TSocket.openGo ok (front ++ [c]) n h0
          = (some { cand := c, connected := true }, n + front.length, true) := by
  induction front with
  | nil => intro _ n h0; simp [TSocket.openGo, hc]
  | cons f fr ih =>
      intro hf n h0
      have hff : ok f = false := hf f (by simp)
      have hfr : ∀ x ∈ fr, ok x = false :=
        fun x hx => hf x (List.mem_cons_of_mem f hx)
      simp [TSocket.openGo, hff, ih hfr] <;> omega

theorem openGo_fail (ok : Cand → Bool) (c : Cand) (front : List Cand) :
    (∀ x ∈ front ++ [c], ok x = false) →
      ∀ (n : Nat) (h0 : Option SockHandle),
        TSocket.openGo ok (front ++ [c]) n h0
          = (some { cand := c, connected := false }, n + front.length + 1,
             false) := by
  induction front with
  | nil =>
      intro hf n h0
      have hc : ok c = false := hf c (by simp)
      simp [TSocket.openGo, hc]
  | cons f fr ih =>
      intro hf n h0
      have hff : ok f = false := hf f (by simp)
      have hfr : ∀ x ∈ fr ++ [c], ok x = false :=
        fun x hx => hf x (List.mem_cons_of_mem f hx)
      simp [TSocket.openGo, hff, ih hfr] <;> omega

/-- C9: a Socket Transport constructed with a set `unixPath` resolves to
exactly one candidate, a Unix-domain stream socket at that path; the
resolution is independent of `host`, `port` and of the system resolver. -/
theorem resolveAddr_unix_spec (p : String) (host : String) (port : Nat)
    (gai : String → Nat → List Cand) :
    (TSocket.init host port (some p)).resolveAddr gai = [Cand.unix p]
    ∧ ∀ (host2 : String) (port2 : Nat) (gai2 : String → Nat → List Cand),
        (TSocket.init host port (some p)).resolveAddr gai
          = (TSocket.init host2 port2 (some p)).resolveAddr gai2 := by
  exact ⟨rfl, fun _ _ _ => rfl⟩

/-- C6: `open()` attempts resolved candidates in order, recovering locally
from each failed connect: over candidates `front ++ [c]` where every
member of `front` fails to connect and `c` connects, `open()` succeeds
using `c` after exactly `front.length` failed attempts; and only when all
candidates fail does `open()` raise `NOT_OPEN`, with the message naming
the Unix path or host:port target. -/
theorem socket_open_candidates_spec (s : TSocket)
    (gai : String → Nat → List Cand) (ok : Cand → Bool)
    (front : List Cand) (c : Cand)
    (hres : s.resolveAddr gai = front ++ [c]) :
    ((∀ x ∈ front, ok x = false) → ok c = true →
       s.open gai ok
         = ({ s with handle := some { cand := c, connected := true } },
            front.length, none))
    ∧ ((∀ x ∈ front ++ [c], ok x = false) →
       s.open gai ok
         = ({ s with handle := some { cand := c, connected := false } },
            front.length + 1,
            some (PyErr.transportExc TTransportException.NOT_OPEN
              s.openFailMessage)))
    ∧ (s.unix_socket = none →
       s.openFailMessage
         = "Could not connect to " ++ s.host ++ ":" ++ toString s.port) := by
  refine ⟨?_, ?_, ?_⟩
  · intro hf hc
    have h := openGo_success ok c hc front hf 0 s.handle
    simp [TSocket.open, hres, h]
  · intro hf
    have h := openGo_fail ok c front hf 0 s.handle
    simp [TSocket.open, hres, h]
  · intro hu
    simp [TSocket.openFailMessage, hu]

/-- Witness for `socket_open_candidates_spec`: two resolved candidates of
which only the last connects; `open()` succeeds on the last after exactly
one failed attempt. -/
theorem socket_open_candidates_spec_witness :
    (TSocket.init "localhost" 9090 none).open
        (fun _ _ => [Cand.inet "a" 1, Cand.inet "b" 2])
        (fun cn => decide (cn = Cand.inet "b" 2))
      = ({ host := "localhost", port := 9090, unix_socket := none,
           handle := some { cand := Cand.inet "b" 2, connected := true } },
         1, none) := by
  exact (socket_open_candidates_spec (TSocket.init "localhost" 9090 none)
    (fun _ _ => [Cand.inet "a" 1, Cand.inet "b" 2])
    (fun cn => decide (cn = Cand.inet "b" 2))
    [Cand.inet "a" 1] (Cand.inet "b" 2) rfl).1 (by decide) (by decide)

/-- C3 (amended): `handle` is `None` after construction and after `close()`,
and `isOpen()` reports exactly handle presence; but when `open()` fails
with `NOT_OPEN` after exhausting all candidates, the handle is left
referring to the last created, unconnected socket, so `handle` is
non-`None` and `isOpen()` returns `true` — the claimed invariant fails at
exactly this point. -/
theorem socket_handle_invariant_amended :
    (∀ (h : String) (p : Nat) (u : Option String),
        (TSocket.init h p u).handle = none
        ∧ (TSocket.init h p u).isOpen = false)
    ∧ (∀ s : TSocket, s.close.handle = none ∧ s.close.isOpen = false)
    ∧ (∀ s : TSocket, s.isOpen = s.handle.isSome)
    ∧ (∀ (s : TSocket) (gai : String → Nat → List Cand) (ok : Cand → Bool)
        (front : List Cand) (c : Cand),
        s.resolveAddr gai = front ++ [c] →
        (∀ x ∈ front ++ [c], ok x = false) →
        (s.open gai ok).2.2
            = some (PyErr.transportExc TTransportException.NOT_OPEN
                s.openFailMessage)
        ∧ (s.open gai ok).1.handle = some { cand := c, connected := false }
        ∧ (s.open gai ok).1.isOpen = true) := by
  refine ⟨fun h p u => ⟨rfl, rfl⟩, ?_, fun s => rfl, ?_⟩
  · intro s
    cases hs : s.handle <;> simp [TSocket.close, hs, TSocket.isOpen]
  · intro s gai ok front c hres hf
    have h := openGo_fail ok c front hf 0 s.handle
    simp [TSocket.open, hres, h, TSocket.isOpen]

/-- Witness for `socket_handle_invariant_amended`: a concrete failed
`open()` leaving `isOpen` true. -/
theorem socket_handle_invariant_amended_witness :
    ((TSocket.init "h" 9090 (some "/s")).open (fun _ _ => [])
        (fun _ => false)).1.isOpen = true := by
  exact (socket_handle_invariant_amended.2.2.2 (TSocket.init "h" 9090 (some "/s"))
    (fun _ _ => []) (fun _ => false) [] (Cand.unix "/s") rfl (by decide)).2.2

/-- Counterexample to C3 as stated: after this concrete `open()` fails with
`NOT_OPEN` (no candidate reachable), the handle is NOT `None` — it still
refers to the last created, unconnected socket — and `isOpen()` returns
`true`, contradicting the claim that a failed `open()` leaves
`handle = None` and `isOpen() = false`. -/
theorem socket_open_fail_handle_cex :
    ((TSocket.init "localhost" 9090 (some "/tmp/x.sock")).open
        (fun _ _ => []) (fun _ => false)).2.2
      = some (PyErr.transportExc TTransportException.NOT_OPEN
          "Could not connect to socket /tmp/x.sock")
    ∧ ((TSocket.init "localhost" 9090 (some "/tmp/x.sock")).open
        (fun _ _ => []) (fun _ => false)).1.handle ≠ none
    ∧ ((TSocket.init "localhost" 9090 (some "/tmp/x.sock")).open
        (fun _ _ => []) (fun _ => false)).1.isOpen = true := by
  exact ⟨by decide, by decide, by decide⟩

/-- C4: with a live handle, any empty receive result — a genuine zero-byte
`recv` or the darwin / freebsd `ECONNRESET` normalization (which also
closes the socket) — makes `read` fail with the typed `END_OF_FILE`
exception carrying the descriptive message, and `read` never returns a
zero-length byte string as a success. -/
theorem socket_read_eof_spec (s : TSocket) (platform : String) (sz : Nat)
    (hopen : s.handle.isSome = true) :
    (s.read platform (RecvResult.recvOk []) sz).2
        = Except.error (PyErr.transportExc TTransportException.END_OF_FILE
            "TSocket read 0 bytes")
    ∧ ((platform = "darwin" ∨ platform.startsWith "freebsd" = true) →
        (s.read platform (RecvResult.recvErr ECONNRESET) sz).2
          = Except.error (PyErr.transportExc TTransportException.END_OF_FILE
              "TSocket read 0 bytes")
        ∧ (s.read platform (RecvResult.recvErr ECONNRESET) sz).1.handle
            = none)
    ∧ (∀ (recv : RecvResult) (b : List Nat),
        (s.read platform recv sz).2 = Except.ok b → b ≠ []) := by
  obtain ⟨hd, hh⟩ := Option.isSome_iff_exists.mp hopen
  refine ⟨by simp [TSocket.read, hh], ?_, ?_⟩
  · intro hplat
    constructor
    · simp [TSocket.read, hh, hplat]
    · simp [TSocket.read, hh, hplat, TSocket.close]
  · intro recv b hb
    cases recv with
    | recvOk data =>
        by_cases hz : data.length = 0
        · simp [TSocket.read, hh, hz] at hb
        · simp [TSocket.read, hh, hz] at hb
          intro hnil
          rw [← hb] at hnil
          exact hz (by simp [hnil])
    | recvErr code =>
        by_cases hc : code = ECONNRESET ∧
            (platform = "darwin" ∨ platform.startsWith "freebsd" = true)
        · simp [TSocket.read, hh, hc] at hb
        · simp [TSocket.read, hh, hc] at hb

/-- Witness for `socket_read_eof_spec`: a zero-byte receive on an open
socket raises the typed END_OF_FILE exception. -/
theorem socket_read_eof_spec_witness :
    (sockOpen.read "linux" (RecvResult.recvOk []) 5).2
      = Except.error (PyErr.transportExc TTransportException.END_OF_FILE
          "TSocket read 0 bytes") := by
  exact (socket_read_eof_spec sockOpen "linux" 5 rfl).1

/-- C10: on a handle-less Socket Transport, `write` raises the typed
`NOT_OPEN` Transport Exception, while `read` performs no such check: it
fails only with the `AttributeError` from dereferencing the absent
handle, and in particular never with a typed Transport Exception. -/
theorem socket_nohandle_spec (s : TSocket) (hnone : s.handle = none)
    (platform : String) (recv : RecvResult) (sz : Nat)
    (send : List Nat → Nat) (buff : List Nat) :
    (s.write send buff).2
        = some (PyErr.transportExc TTransportException.NOT_OPEN
            "Transport not open")
    ∧ (s.read platform recv sz).2 = Except.error PyErr.attributeError
    ∧ (∀ (ty : Nat) (msg : String),
        (s.read platform recv sz).2
          ≠ Except.error (PyErr.transportExc ty msg)) := by
  refine ⟨by simp [TSocket.write, hnone], by simp [TSocket.read, hnone], ?_⟩
  intro ty msg
  simp [TSocket.read, hnone]

/-- Witness for `socket_nohandle_spec` at a freshly constructed socket. -/
theorem socket_nohandle_spec_witness :
    ((TSocket.init "h" 1 none).write (fun _ => 0) []).2
      = some (PyErr.transportExc TTransportException.NOT_OPEN
          "Transport not open") := by
  exact (socket_nohandle_spec (TSocket.init "h" 1 none) rfl "linux"
    (RecvResult.recvOk []) 0 (fun _ => 0) []).1

-- Helper lemma for the send loop.

theorem writeGo_ok (send : List Nat → Nat)
    (hs : ∀ b : List Nat, b ≠ [] → send b ≠ 0 ∧ send b ≤ b.length) :
    ∀ (fuel : Nat) (buff : List Nat) (sent hv : Nat)
      (log : List (List Nat × Nat)),
      buff.length = fuel → sent + buff.length = hv →
      (TSocket.writeGo send buff sent hv log).2 = none
      ∧ ((TSocket.writeGo send buff sent hv log).1.map Prod.snd).sum
          = (log.map Prod.snd).sum + buff.length
      ∧ ((TSocket.writeGo send buff sent hv log).1.map
            (fun pr => pr.1.take pr.2)).flatten
          = (log.map (fun pr => pr.1.take pr.2)).flatten ++ buff := by
  intro fuel
  induction fuel using Nat.strong_induction_on with
  | _ fuel ih =>
    intro buff sent hv log hlen hinv
    by_cases h : sent < hv
    · have hbne : buff ≠ [] := by
        intro hb
        rw [hb] at hinv
        simp at hinv
        omega
      obtain ⟨hnz, hle⟩ := hs buff hbne
      rw [TSocket.writeGo, dif_pos h, dif_neg hnz]
      have hlt : (buff.drop (send buff)).length < fuel := by
        simp [List.length_drop]
        omega
      have hrec := ih (buff.drop (send buff)).length hlt (buff.drop (send buff))
        (sent + send buff) hv (log ++ [(buff, send buff)]) rfl
        (by simp [List.length_drop]; omega)
      refine ⟨hrec.1, ?_, ?_⟩
      · rw [hrec.2.1]
        simp [List.length_drop]
        omega
      · rw [hrec.2.2]
        simp [List.map_append, List.flatten_append, List.append_assoc]
    · rw [TSocket.writeGo, dif_neg h]
      have hz : buff.length = 0 := by omega
      have hbe : buff = [] := List.length_eq_zero.mp hz
      subst hbe
      simp

theorem writeGo_step (send : List Nat → Nat) (buff : List Nat)
    (sent hv : Nat) (log : List (List Nat × Nat)) (h : sent < hv)
    (hnz : send buff ≠ 0) :
    TSocket.writeGo send buff sent hv log
      = TSocket.writeGo send (buff.drop (send buff)) (sent + send buff) hv
          (log ++ [(buff, send buff)]) := by
  rw [TSocket.writeGo, dif_pos h, dif_neg hnz]

theorem writeGo_stop (send : List Nat → Nat) (buff : List Nat)
    (sent hv : Nat) (log : List (List Nat × Nat)) (h : ¬ sent < hv) :
    TSocket.writeGo send buff sent hv log = (log, none) := by
  rw [TSocket.writeGo, dif_neg h]

theorem mock_write_eval :
    sockOpen.write sendAtMost3 bytes10
      = ([([0, 1, 2, 3, 4, 5, 6, 7, 8, 9], 3), ([3, 4, 5, 6, 7, 8, 9], 3),
          ([6, 7, 8, 9], 3), ([9], 1)], none) := by
  show TSocket.writeGo sendAtMost3 bytes10 0 bytes10.length [] = _
  rw [writeGo_step _ _ _ _ _ (by decide) (by decide)]
  rw [writeGo_step _ _ _ _ _ (by decide) (by decide)]
  rw [writeGo_step _ _ _ _ _ (by decide) (by decide)]
  rw [writeGo_step _ _ _ _ _ (by decide) (by decide)]
  rw [writeGo_stop _ _ _ _ _ (by decide)]
  decide

/-- C5: with a live handle, `write buff` loops sending until the whole
buffer is transmitted: when the socket accepts a positive number of bytes
(at most the remainder) per call, `write` succeeds, the accepted-byte
counts of the send calls sum to `buff.length`, and the accepted prefixes
of the successive payloads concatenate to `buff` in order; a send call
that accepts zero bytes makes `write` fail with the typed `END_OF_FILE`
exception; and the mock socket accepting at most 3 bytes per send needs
exactly 4 send calls, whose counts sum to 10, for a 10-byte buffer. -/
theorem socket_write_spec (s : TSocket) (send : List Nat → Nat)
    (buff : List Nat) (hopen : s.handle.isSome = true)
    (hs : ∀ b : List Nat, b ≠ [] → send b ≠ 0 ∧ send b ≤ b.length) :
    (s.write send buff).2 = none
    ∧ ((s.write send buff).1.map Prod.snd).sum = buff.length
    ∧ ((s.write send buff).1.map (fun pr => pr.1.take pr.2)).flatten = buff
    ∧ (∀ (send2 : List Nat → Nat) (b2 : List Nat), b2 ≠ [] → send2 b2 = 0 →
        (s.write send2 b2).2
          = some (PyErr.transportExc TTransportException.END_OF_FILE
              "TSocket sent 0 bytes"))
    ∧ (sockOpen.write sendAtMost3 bytes10).1.length = 4
    ∧ ((sockOpen.write sendAtMost3 bytes10).1.map Prod.snd).sum = 10 := by
  obtain ⟨hd, hh⟩ := Option.isSome_iff_exists.mp hopen
  have h := writeGo_ok send hs buff.length buff 0 buff.length [] rfl (by simp)
  refine ⟨?_, ?_, ?_, ?_, ?_, ?_⟩
  · simpa [TSocket.write, hh] using h.1
  · simpa [TSocket.write, hh] using h.2.1
  · simpa [TSocket.write, hh] using h.2.2
  · intro send2 b2 hb2 hz
    have hpos : 0 < b2.length := List.length_pos.mpr hb2
    rw [TSocket.write]
    rw [hh]
    rw [TSocket.writeGo, dif_pos (by omega), dif_pos hz]
  · rw [mock_write_eval]
    rfl
  · rw [mock_write_eval]
    rfl

/-- Witness for `socket_write_spec` at the mock socket accepting at most
3 bytes per send and the 10-byte buffer. -/
theorem socket_write_spec_witness :
    (sockOpen.write sendAtMost3 bytes10).2 = none := by
  have hs3 : ∀ b : List Nat, b ≠ [] →
      sendAtMost3 b ≠ 0 ∧ sendAtMost3 b ≤ b.length := by
    intro b hb
    have hp : 0 < b.length := List.length_pos.mpr hb
    constructor
    · show min 3 b.length ≠ 0
      omega
    · exact Nat.min_le_right 3 b.length
  exact (socket_write_spec sockOpen sendAtMost3 bytes10 rfl hs3).1

-- Helper lemmas for the refill path.

theorem mockReadAllGo_log (sz : Nat) (script : List (List Nat)) :
    ∀ (hv : Nat) (buff : List Nat) (log : List InnerEvent),
      ∃ evs, (mockReadAllGo sz script hv buff log).2.1 = log ++ evs := by
  induction script with
  | nil =>
      intro hv buff log
      rw [mockReadAllGo]
      by_cases h : hv < sz
      · rw [if_pos h]
        exact ⟨[InnerEvent.read (sz - hv)], rfl⟩
      · rw [if_neg h]
        exact ⟨[], by simp⟩
  | cons d rest ih =>
      intro hv buff log
      rw [mockReadAllGo]
      by_cases h : hv < sz
      · rw [if_pos h]
        by_cases hd : d.length = 0
        · rw [if_pos hd]
          exact ⟨[InnerEvent.read (sz - hv)], rfl⟩
        · rw [if_neg hd]
          obtain ⟨evs, he⟩ :=
            ih (hv + d.length) (buff ++ d) (log ++ [InnerEvent.read (sz - hv)])
          exact ⟨[InnerEvent.read (sz - hv)] ++ evs, by rw [he]; simp⟩
      · rw [if_neg h]
        exact ⟨[], by simp⟩

theorem MockInner.readAll_log (m : MockInner) (sz : Nat) :
    ∃ evs, ((m.readAll sz).1).log = m.log ++ evs := by
  obtain ⟨evs, he⟩ := mockReadAllGo_log sz m.readScript 0 [] m.log
  exact ⟨evs, by simp [MockInner.readAll, he]⟩

theorem mockReadAllGo_ok_bound (script : List (List Nat)) :
    ∀ (sz : Nat) (buff : List Nat) (log : List InnerEvent) (out : List Nat),
      (mockReadAllGo sz script buff.length buff log).2.2 = Except.ok out →
      sz ≤ out.length ∧ ∃ nb, out = buff ++ nb := by
  induction script with
  | nil =>
      intro sz buff log out heq
      rw [mockReadAllGo] at heq
      by_cases h : buff.length < sz
      · rw [if_pos h] at heq
        simp at heq
      · rw [if_neg h] at heq
        simp at heq
        subst heq
        exact ⟨by omega, [], by simp⟩
  | cons d rest ih =>
      intro sz buff log out heq
      rw [mockReadAllGo] at heq
      by_cases h : buff.length < sz
      · rw [if_pos h] at heq
        by_cases hd : d.length = 0
        · rw [if_pos hd] at heq
          simp at heq
        · rw [if_neg hd] at heq
          have hlen : buff.length + d.length = (buff ++ d).length := by simp
          rw [hlen] at heq
          obtain ⟨hb, nb, hnb⟩ := ih sz (buff ++ d) _ out heq
          exact ⟨hb, d ++ nb, by rw [hnb]; simp⟩
      · rw [if_neg h] at heq
        simp at heq
        subst heq
        exact ⟨by omega, [], by simp⟩

theorem MockInner.readAll_ok_bound (m : MockInner) (sz : Nat)
    (out : List Nat) :
    (m.readAll sz).2 = Except.ok out → sz ≤ out.length := by
  intro h
  have hgo : (mockReadAllGo sz m.readScript 0 [] m.log).2.2 = Except.ok out := by
    simpa [MockInner.readAll] using h
  have hb := mockReadAllGo_ok_bound m.readScript sz [] m.log out hgo
  exact hb.1

/-- C8 (amended): the raw-buffer refill `(partialBytesAlreadyConsumed,
totalBytesRequired)` performs its one opportunistic extra read of
`blockSize` bytes from the inner transport ONLY when
`totalBytesRequired < blockSize` (when `totalBytesRequired ≥ blockSize`
and the consumed bytes already cover the requirement, it makes no inner
call at all); any remaining shortfall is then obtained via the
exact-byte-count `readAll`; and on success it installs and returns a
brand-new buffer positioned at its start whose contents start with the
previously-consumed bytes followed by all newly read bytes, of length at
least `totalBytesRequired`. -/
theorem refill_spec_amended (t : TBufferedTransport) (pb : List Nat)
    (reqlen : Nat) :
    (reqlen < t.rbuf_size →
       ∃ evs, (t.cstringio_refill pb reqlen).1.inner.log
         = t.inner.log ++ InnerEvent.read t.rbuf_size :: evs)
    ∧ (t.rbuf_size ≤ reqlen → reqlen ≤ pb.length →
       t.cstringio_refill pb reqlen
         = ({ t with rbuf := { data := pb, pos := 0 } },
            Except.ok { data := pb, pos := 0 }))
    ∧ (∀ (t2 : TBufferedTransport) (b : ByteBuf),
        t.cstringio_refill pb reqlen = (t2, Except.ok b) →
        b.pos = 0 ∧ (∃ nb, b.data = pb ++ nb) ∧ reqlen ≤ b.data.length
        ∧ t2.rbuf = b) := by
  refine ⟨?_, ?_, ?_⟩
  · intro hlt
    have hr := MockInner.read_log t.inner t.rbuf_size
    by_cases hb : pb.length + (t.inner.read t.rbuf_size).1.length < reqlen
    · obtain ⟨evs2, he2⟩ := MockInner.readAll_log (t.inner.read t.rbuf_size).2
        (reqlen - (pb.length + (t.inner.read t.rbuf_size).1.length))
      refine ⟨evs2, ?_⟩
      cases hm : ((t.inner.read t.rbuf_size).2.readAll
          (reqlen - (pb.length + (t.inner.read t.rbuf_size).1.length))).2 with
      | error e =>
          simp [TBufferedTransport.cstringio_refill, if_pos hlt, if_pos hb, hm]
          rw [he2, hr]
          simp
      | ok more =>
          simp [TBufferedTransport.cstringio_refill, if_pos hlt, if_pos hb, hm]
          rw [he2, hr]
          simp
    · refine ⟨[], ?_⟩
      simp [TBufferedTransport.cstringio_refill, if_pos hlt, if_neg hb, hr]
  · intro hge hlen
    have h1 : ¬ reqlen < t.rbuf_size := by omega
    have h2 : ¬ pb.length < reqlen := by omega
    simp [TBufferedTransport.cstringio_refill, if_neg h1, if_neg h2]
  · intro t2 b heq
    by_cases hlt : reqlen < t.rbuf_size
    · simp only [TBufferedTransport.cstringio_refill, if_pos hlt,
        List.length_append] at heq
      by_cases hb : pb.length + (t.inner.read t.rbuf_size).1.length < reqlen
      · rw [if_pos hb] at heq
        cases hm : ((t.inner.read t.rbuf_size).2.readAll
            (reqlen - (pb.length + (t.inner.read t.rbuf_size).1.length))).2 with
        | error e => simp [hm] at heq
        | ok more =>
            simp [hm] at heq
            obtain ⟨ht2, hbb⟩ := heq
            have hk := MockInner.readAll_ok_bound (t.inner.read t.rbuf_size).2
              (reqlen - (pb.length + (t.inner.read t.rbuf_size).1.length))
              more hm
            subst ht2
            subst hbb
            refine ⟨rfl, ⟨(t.inner.read t.rbuf_size).1 ++ more, by simp⟩,
              ?_, rfl⟩
            simp at hk ⊢
            omega
      · rw [if_neg hb] at heq
        simp at heq
        obtain ⟨ht2, hbb⟩ := heq
        subst ht2
        subst hbb
        refine ⟨rfl, ⟨(t.inner.read t.rbuf_size).1, rfl⟩, ?_, rfl⟩
        simp
        omega
    · simp only [TBufferedTransport.cstringio_refill, if_neg hlt] at heq
      by_cases hb : pb.length < reqlen
      · rw [if_pos hb] at heq
        cases hm : (t.inner.readAll (reqlen - pb.length)).2 with
        | error e => simp [hm] at heq
        | ok more =>
            simp [hm] at heq
            obtain ⟨ht2, hbb⟩ := heq
            have hk := MockInner.readAll_ok_bound t.inner
              (reqlen - pb.length) more hm
            subst ht2
            subst hbb
            refine ⟨rfl, ⟨more, rfl⟩, ?_, rfl⟩
            simp
            omega
      · rw [if_neg hb] at heq
        simp at heq
        obtain ⟨ht2, hbb⟩ := heq
        subst ht2
        subst hbb
        refine ⟨rfl, ⟨[], by simp⟩, ?_, rfl⟩
        show reqlen ≤ pb.length
        omega

/-- Witness for `refill_spec_amended`: with `totalBytesRequired` equal to
the block size and enough bytes already consumed, the refill makes no
inner call and returns the consumed bytes as the fresh buffer. -/
theorem refill_spec_amended_witness :
    (TBufferedTransport.init [[9, 9]] false false 4).cstringio_refill
        [1, 2, 3, 4, 5] 4
      = ({ TBufferedTransport.init [[9, 9]] false false 4 with
            rbuf := { data := [1, 2, 3, 4, 5], pos := 0 } },
         Except.ok { data := [1, 2, 3, 4, 5], pos := 0 }) := by
  exact (refill_spec_amended (TBufferedTransport.init [[9, 9]] false false 4)
    [1, 2, 3, 4, 5] 4).2.1 (by decide) (by decide)

/-- Counterexample to C8 as stated: the claim says every refill FIRST
attempts one opportunistic extra read of `blockSize` bytes from the inner
transport.  At `totalBytesRequired = blockSize = 4` with four
previously-consumed bytes, this concrete refill completes with ZERO inner
calls (empty inner log) — no opportunistic read happens, because the code
only performs it when `totalBytesRequired < blockSize`. -/
theorem refill_no_opportunistic_read_cex :
    ((TBufferedTransport.init [[9, 9]] false false 4).cstringio_refill
        [1, 2, 3, 4] 4).1.inner.log = []
    ∧ ((TBufferedTransport.init [[9, 9]] false false 4).cstringio_refill
        [1, 2, 3, 4] 4).2 = Except.ok { data := [1, 2, 3, 4], pos := 0 } := by
  exact ⟨rfl, rfl⟩
